import Mathlib

/-!
Shallow embedding of `src/endpoint/app.py` (pi-audio-endpoint), the playback
process lifecycle manager.  Pure helpers (`shlex.quote`, `Path.suffix`,
`build_command`, `safe_resolve_path`) are embedded as Lean functions on
`String` and `List Char`; the mutable module state (`STATE`, the global
`PROC` handle) and its lock-guarded transitions become explicit state
passing over a `Sys` record; the interleaving of HTTP handler threads with
the detached `spawn_player` session threads becomes a small scheduler over
per-thread queues of atomic (lock-guarded) steps.
-/

namespace PiAudio

/-- Character code 39, the POSIX single quote used by `shlex.quote`. -/
def squote : Char := Char.ofNat 39

/-- Character code 34, the double quote. -/
def dquote : Char := Char.ofNat 34

/-- Character code 92, the backslash. -/
def bslash : Char := Char.ofNat 92

/-- Character code 96, the backquote. -/
def btick : Char := Char.ofNat 96

/-- Characters that CPython `shlex.quote` leaves unquoted: those its
`_find_unsafe` search (ASCII word characters plus at-sign, percent, plus,
equals, colon, comma, dot, slash and dash) treats as safe. -/
def isShellSafeChar (c : Char) : Bool :=
  c.isAlphanum || c = '_' || c = '@' || c = '%' || c = '+' || c = '=' ||
    c = ':' || c = ',' || c = '.' || c = '/' || c = '-'

/-- Replacement CPython `shlex.quote` performs on the quoted body: a single
quote becomes the five characters quote, double quote, quote, double quote,
quote. -/
def escSQ (c : Char) : List Char :=
  if c = squote then [squote, dquote, squote, dquote, squote] else [c]

/-- CPython `shlex.quote` on a list of characters: the empty string becomes
two quotes, a fully safe string is returned unchanged, anything else is
wrapped in single quotes with embedded quotes escaped. -/
def shQuoteChars (s : List Char) : List Char :=
  if s = [] then [squote, squote]
  else if s.all isShellSafeChar then s
  else squote :: (s.map escSQ).flatten ++ [squote]

/-- CPython `shlex.quote`, as called by `build_command` (app.py line 164). -/
def shlexQuote (s : String) : String := ⟨shQuoteChars s.data⟩

/-- Lexer modes of the POSIX shell word splitter: outside quotes, inside
single quotes, inside double quotes. -/
inductive LexMode
  | norm
  | insingle
  | indouble
deriving DecidableEq

/-- Tokens of the shell command model: literal words, and the pipe operator. -/
inductive Tok
  | word (w : List Char)
  | pipe
deriving DecidableEq

/-- Unquoted characters on which the shell model refuses to return a plain
pipeline: command separators, redirections, subshells, expansions and the
escape character.  A command containing any of these outside quotes would not
be a plain two-stage pipeline with literal arguments. -/
def shellDanger : List Char := [';', '&', '<', '>', '(', ')', '$', btick, bslash, '\n', '\t']

/-- Characters that remain special inside double quotes. -/
def doubleDanger : List Char := ['$', btick, bslash]

/-- Simplified POSIX shell word splitter.  `acc` is the word being built and
`started` records whether a word is in progress (so quoted empty words
survive).  Spaces separate words, an unquoted pipe is the pipeline operator,
quotes switch modes, and any other shell-special character outside single
quotes makes the split fail. -/
def lexAux : LexMode → List Char → Bool → List Char → Option (List Tok)
  | .norm, acc, started, [] => some (if started then [.word acc] else [])
  | .norm, acc, started, c :: rest =>
    if c = ' ' then
      if started then (lexAux .norm [] false rest).map (fun ts => .word acc :: ts)
      else lexAux .norm [] false rest
    else if c = '|' then
      if started then (lexAux .norm [] false rest).map (fun ts => .word acc :: .pipe :: ts)
      else (lexAux .norm [] false rest).map (fun ts => .pipe :: ts)
    else if c = squote then lexAux .insingle acc true rest
    else if c = dquote then lexAux .indouble acc true rest
    else if c ∈ shellDanger then none
    else lexAux .norm (acc ++ [c]) true rest
  | .insingle, _, _, [] => none
  | .insingle, acc, _, c :: rest =>
    if c = squote then lexAux .norm acc true rest
    else lexAux .insingle (acc ++ [c]) true rest
  | .indouble, _, _, [] => none
  | .indouble, acc, _, c :: rest =>
    if c = dquote then lexAux .norm acc true rest
    else if c ∈ doubleDanger then none
    else lexAux .indouble (acc ++ [c]) true rest

/-- Shell word splitting of a whole command string. -/
def shellLex (s : String) : Option (List Tok) := lexAux .norm [] false s.data

/-- Split a token stream at pipes into the argument vectors of the pipeline
stages. -/
def splitPipes : List Tok → List (List (List Char))
  | [] => [[]]
  | .pipe :: ts => [] :: splitPipes ts
  | .word w :: ts =>
    match splitPipes ts with
    | [] => [[w]]
    | s :: rest => (w :: s) :: rest

/-- Parse a command string into the pipeline of argument vectors the shell
would execute. -/
def shellParse (s : String) : Option (List (List (List Char))) :=
  (shellLex s).map splitPipes

/-- Final path component (the text after the last slash), as in
`pathlib.PurePath.name`. -/
def lastComponent (cs : List Char) : List Char :=
  cs.foldl (fun acc c => if c = '/' then [] else acc ++ [c]) []

/-- Python `PurePath.suffix`: the part of the final component from its last
dot, empty when the dot is leading, trailing or absent. -/
def pySuffixChars (cs : List Char) : List Char :=
  let name := lastComponent cs
  match name.reverse.findIdx? (fun c => c = '.') with
  | none => []
  | some j => if 0 < j ∧ j < name.length - 1 then (name.reverse.take (j + 1)).reverse else []

/-- Python `file_path.suffix` on a rendered path. -/
def pySuffix (s : String) : String := ⟨pySuffixChars s.data⟩

/-- Python `str.lower` on ASCII text. -/
def strLower (s : String) : String := ⟨s.data.map Char.toLower⟩

/-- Split character text on slashes, dropping empty components, as `pathlib`
does when parsing a path string. -/
def splitSlashAux : List Char → List Char → List String
  | [], acc => if acc = [] then [] else [(⟨acc⟩ : String)]
  | c :: rest, acc =>
    if c = '/' then
      if acc = [] then splitSlashAux rest []
      else (⟨acc⟩ : String) :: splitSlashAux rest []
    else splitSlashAux rest (acc ++ [c])

/-- Components of a path string. -/
def splitSlash (cs : List Char) : List String := splitSlashAux cs []

/-- Python `pathlib.Path` parse result: absolute flag plus components, which
may still contain dot and dot-dot entries. -/
structure PyPath where
  absolute : Bool
  parts : List String
deriving DecidableEq

/-- Parse a request path string the way `Path(p)` does. -/
def parsePyPath (s : String) : PyPath :=
  { absolute := s.data.head? = some '/', parts := splitSlash s.data }

/-- Canonicalization performed by `Path.resolve`: dot entries vanish, dot-dot
pops a component (and stays put at the filesystem root).  Symlinks are not
modelled. -/
def resolveParts (ps : List String) : List String :=
  ps.foldl (fun acc c => if c = "." then acc else if c = ".." then acc.dropLast else acc ++ [c]) []

/-- Canonical form computed at app.py line 49: an absolute request path
stands alone, a relative one is joined to the configured root, and the
result is canonicalized. -/
def canonicalOf (root : List String) (p : PyPath) : List String :=
  resolveParts (if p.absolute then p.parts else root ++ p.parts)

/-- Failure modes of `safe_resolve_path`. -/
inductive ResolveErr
  | outsideRoot
  | notFound
  | notAFile
deriving DecidableEq

/-- Embedding of `safe_resolve_path` (app.py lines 47-62).  The filesystem is
an oracle pair: `fsExists` models `resolved.exists()` and `fsIsFile` models
`resolved.is_file()`.  The containment check (`relative_to`, which succeeds
exactly when the canonical root components are a prefix of the canonical
path) runs before either oracle is consulted. -/
def safe_resolve_path (fsExists fsIsFile : List String → Bool)
    (root : List String) (p : PyPath) : Except ResolveErr (List String) :=
  let resolved := canonicalOf root p
  if root.isPrefixOf resolved then
    if fsExists resolved then
      if fsIsFile resolved then .ok resolved
      else .error .notAFile
    else .error .notFound
  else .error .outsideRoot

/-- Allowed `pcm_format` literals of `PlayRequest` (app.py line 84). -/
inductive PcmFormat
  | s32le
  | s24le
  | s16le
deriving DecidableEq

/-- Text of a pcm format literal. -/
def PcmFormat.str : PcmFormat → String
  | .s32le => "S32_LE"
  | .s24le => "S24_LE"
  | .s16le => "S16_LE"

/-- Format kinds of a play request (app.py line 82). -/
inductive Kind
  | auto
  | flac
  | wav
  | pcm
deriving DecidableEq

/-- Embedding of the pydantic `PlayRequest` model (app.py lines 80-86). -/
structure PlayRequest where
  path : String
  kind : Kind := .auto
  pcm_format : Option PcmFormat := none
  pcm_rate : Option Nat := none
  pcm_channels : Option Nat := none
deriving DecidableEq

/-- Failure modes of `build_command`. -/
inductive BuildErr
  | unknownFormat (ext : String)
  | missingPcmParams
  | unsupportedKind
deriving DecidableEq

/-- Command string built for flac input (app.py lines 169-172). -/
def flacCmd (dev file_path : String) : String :=
  "/usr/bin/ffmpeg -loglevel error -i " ++ shlexQuote file_path ++
    " -f wav -c:a pcm_s32le -ac 2 - | /usr/bin/aplay -D " ++ shlexQuote dev

/-- Command string built for wav input (app.py line 175). -/
def wavCmd (dev file_path : String) : String :=
  "/usr/bin/aplay -D " ++ shlexQuote dev ++ " " ++ shlexQuote file_path

/-- Command string built for raw pcm input (app.py lines 183-188). -/
def pcmCmd (dev : String) (fmt : PcmFormat) (rate channels : Nat) (file_path : String) : String :=
  "/usr/bin/aplay -D " ++ shlexQuote dev ++ " -f " ++ shlexQuote fmt.str ++
    " -r " ++ Nat.repr rate ++ " -c " ++ Nat.repr channels ++ " " ++ shlexQuote file_path

/-- Format-kind resolution of `build_command` (app.py lines 153-162). -/
def resolve_kind (k : Kind) (ext : String) : Except BuildErr Kind :=
  if k = .auto then
    if ext = ".flac" then .ok .flac
    else if ext = ".wav" ∨ ext = ".wave" then .ok .wav
    else if ext = ".pcm" ∨ ext = ".raw" then .ok .pcm
    else .error (.unknownFormat ext)
  else .ok k

/-- Embedding of `build_command` (app.py lines 150-190).  The pcm branch
mirrors the Python truthiness test `not req.pcm_format or not req.pcm_rate
or not req.pcm_channels`: a missing field is falsy, and so is a supplied
rate or channel count equal to zero. -/
def build_command (dev : String) (req : PlayRequest) (file_path : String) : Except BuildErr String :=
  match resolve_kind req.kind (strLower (pySuffix file_path)) with
  | .error e => .error e
  | .ok kind =>
    if kind = .flac then .ok (flacCmd dev file_path)
    else if kind = .wav then .ok (wavCmd dev file_path)
    else if kind = .pcm then
      match req.pcm_format, req.pcm_rate, req.pcm_channels with
      | some fmt, some rate, some channels =>
        if rate = 0 ∨ channels = 0 then .error .missingPcmParams
        else .ok (pcmCmd dev fmt rate channels file_path)
      | _, _, _ => .error .missingPcmParams
    else .error .unsupportedKind

/-- Argument vector actually handed to the operating system by
`spawn_player` (app.py line 116): the whole constructed command is one
string evaluated by `/bin/sh -lc`. -/
def spawn_argv (cmd : String) : List String := ["/bin/sh", "-lc", cmd]

/-- The two external programs the specification intends to be invoked: the
decoder and the PCM player. -/
def intendedPrograms : List String := ["/usr/bin/ffmpeg", "/usr/bin/aplay"]

/-- Modelled from the spec: the pipeline of explicit argument vectors that
section 4.2 says `build` produces — a two-stage decoder-into-player chain
for flac, a single player stage for wav, and a single player stage with
explicit format, rate and channel arguments for pcm, each argument carried
literally. -/
def specStages (dev file : String) (req : PlayRequest) : Except BuildErr (List (List (List Char))) :=
  match resolve_kind req.kind (strLower (pySuffix file)) with
  | .error e => .error e
  | .ok .flac =>
    .ok [["/usr/bin/ffmpeg".data, "-loglevel".data, "error".data, "-i".data, file.data,
          "-f".data, "wav".data, "-c:a".data, "pcm_s32le".data, "-ac".data, "2".data, "-".data],
         ["/usr/bin/aplay".data, "-D".data, dev.data]]
  | .ok .wav =>
    .ok [["/usr/bin/aplay".data, "-D".data, dev.data, file.data]]
  | .ok .pcm =>
    match req.pcm_format, req.pcm_rate, req.pcm_channels with
    | some fmt, some rate, some channels =>
      if rate = 0 ∨ channels = 0 then .error .missingPcmParams
      else
        .ok [["/usr/bin/aplay".data, "-D".data, dev.data, "-f".data, fmt.str.data,
              "-r".data, (Nat.repr rate).data, "-c".data, (Nat.repr channels).data, file.data]]
    | _, _, _ => .error .missingPcmParams
  | .ok .auto => .error .unsupportedKind

/-- Status values of the player state (app.py line 67). -/
inductive PStatus
  | stopped
  | playing
  | error
deriving DecidableEq

/-- Embedding of the `PlayerState` dataclass (app.py lines 65-72). -/
structure PlayerState where
  status : PStatus := .stopped
  current_file : Option String := none
  started_utc : Option Nat := none
  pid : Option Nat := none
  last_error : Option String := none
  last_exit_code : Option Int := none
deriving DecidableEq

/-- Whole mutable module state: `STATE`, the global `PROC` handle (by pid),
the set of live spawned processes, and a fresh-pid counter standing in for
the operating system's pid allocation. -/
structure Sys where
  state : PlayerState := {}
  proc : Option Nat := none
  alive : List Nat := []
  nextPid : Nat := 100
deriving DecidableEq

/-- State at startup (app.py line 75). -/
def initSys : Sys := {}

/-- Field resets performed at the end of `stop_playback_locked`
(app.py lines 106-109). -/
def stoppedReset (st : PlayerState) : PlayerState :=
  { st with status := .stopped, current_file := none, started_utc := none, pid := none }

/-- Embedding of `stop_playback_locked` (app.py lines 92-109): when a live
process is owned its process group is terminated (SIGTERM, bounded grace
wait, SIGKILL escalation — all completing inside this critical section, so
the process is gone afterwards either way); then the handle is dropped and
the state fields are reset. -/
def stopLocked (s : Sys) : Sys :=
  let s1 := match s.proc with
    | some p => if p ∈ s.alive then { s with alive := s.alive.erase p } else s
    | none => s
  { s1 with proc := none, state := stoppedReset s1.state }

/-- Endpoint POST /stop (app.py lines 199-203): stop under the lock and
answer with ok set to true. -/
def stopApi (s : Sys) : Sys × Bool := (stopLocked s, true)

/-- Exit transition of `spawn_player` (app.py lines 136-148) at exit code
`rc`: the exit code is recorded, then a zero code runs the stop reset while
a nonzero code moves to the error status, records the message and clears
the handle and pid — leaving `current_file` untouched. -/
def onExit (rc : Int) (s : Sys) : Sys :=
  let s0 : Sys := { s with state := { s.state with last_exit_code := some rc } }
  if rc = 0 then stopLocked s0
  else
    { s0 with
        proc := none,
        state := { s0.state with
                     status := .error,
                     last_error := some ("Player exited with code " ++ toString rc),
                     pid := none } }

/-- Session-exit transition: the owned process leaves the live set (it has
exited, so `poll()` is no longer `None`) and then the exit handler runs. -/
def sessionExit (rc : Int) (s : Sys) : Sys :=
  onExit rc { s with alive := (match s.proc with | some p => s.alive.erase p | none => s.alive) }

/-- Session start: the spawn (app.py lines 115-122) plus the set-Playing
critical section (lines 124-130), taken as one lock-guarded transition with
a fresh pid. -/
def spawnSet (file : String) (t : Nat) (s : Sys) : Sys :=
  let p := s.nextPid
  { s with
      nextPid := p + 1, proc := some p, alive := s.alive ++ [p],
      state := { s.state with
                   status := .playing, current_file := some file,
                   started_utc := some t, pid := some p,
                   last_error := none, last_exit_code := none } }

/-- Lock-guarded transitions of the controller: the preemptive or api stop,
a session start, a session exit, and the read-only status snapshot. -/
inductive Trans
  | stopT
  | startT (file : String) (t : Nat)
  | exitT (rc : Int)
  | statusT
deriving DecidableEq

/-- Apply one lock-guarded transition. -/
def applyTrans (s : Sys) : Trans → Sys
  | .stopT => stopLocked s
  | .startT f t => spawnSet f t s
  | .exitT rc => sessionExit rc s
  | .statusT => s

/-- Run a sequence of lock-guarded transitions from a state. -/
def runTrans (ts : List Trans) (s : Sys) : Sys := ts.foldl applyTrans s

/-- Errors surfaced synchronously by POST /play. -/
inductive ApiErr
  | resolve (e : ResolveErr)
  | build (e : BuildErr)
deriving DecidableEq

/-- Text of an absolute path from canonical components, as `str(file_path)`
renders it. -/
def renderAbs (parts : List String) : String := parts.foldl (fun a p => a ++ "/" ++ p) ""

/-- Result of the synchronous part of POST /play: the state it leaves
behind, and either the error answered to the caller or the command the
detached session thread was started with. -/
structure PlayOutcome where
  sys : Sys
  result : Except ApiErr String

/-- Synchronous body of POST /play (app.py lines 206-217): resolve the path
(no lock, no state), preemptively stop under the lock, then build the
command; on success the session thread is started with the returned command
(its later execution is modelled by the scheduler below). -/
def playResult (root : List String) (fsExists fsIsFile : List String → Bool)
    (dev : String) (req : PlayRequest) (s : Sys) : PlayOutcome :=
  match safe_resolve_path fsExists fsIsFile root (parsePyPath req.path) with
  | .error e => ⟨s, .error (.resolve e)⟩
  | .ok parts =>
    let s1 := stopLocked s
    match build_command dev req (renderAbs parts) with
    | .error e => ⟨s1, .error (.build e)⟩
    | .ok cmd => ⟨s1, .ok cmd⟩

/-- Atomic steps of the interleaving model.  Each is one critical section or
one indivisible system call of app.py: the locked preemptive stop, the
`threading.Thread(...).start()` that detaches a session, the `Popen` spawn
that overwrites the global `PROC` (line 115), and the locked set-Playing
block that reads the pid back from the global `PROC` (line 128; when `PROC`
is gone that read raises in the daemon thread and the state is untouched). -/
inductive Atom
  | lockStop
  | forkSession (sid : Nat) (file : String)
  | spawn
  | setPlaying (file : String)
deriving DecidableEq

/-- Program of a detached session thread, up to its set-Playing section. -/
def sessionProg (file : String) : List Atom := [.spawn, .setPlaying file]

/-- Program of the synchronous part of one successful play call: the locked
preemptive stop runs to completion, then the detached session thread `sid`
is started; the call returns once its queue is empty. -/
def playProg (sid : Nat) (file : String) : List Atom := [.lockStop, .forkSession sid file]

/-- A scheduler configuration: the shared state plus the queues of the
threads that still have steps to take. -/
structure Config where
  sys : Sys
  threads : List (Nat × List Atom)
deriving DecidableEq

/-- Effect of one atomic step on a configuration. -/
def execAtom (a : Atom) (c : Config) : Config :=
  match a with
  | .lockStop => { c with sys := stopLocked c.sys }
  | .forkSession sid file => { c with threads := c.threads ++ [(sid, sessionProg file)] }
  | .spawn =>
    let p := c.sys.nextPid
    { c with sys := { c.sys with nextPid := p + 1, proc := some p, alive := c.sys.alive ++ [p] } }
  | .setPlaying file =>
    match c.sys.proc with
    | some p =>
      { c with
          sys := { c.sys with
                     state := { c.sys.state with
                                  status := .playing, current_file := some file,
                                  started_utc := some 0, pid := some p,
                                  last_error := none, last_exit_code := none } } }
    | none => c

/-- Let thread `tid` take its next step, if it has one. -/
def stepThread (c : Config) (tid : Nat) : Config :=
  match c.threads.find? (fun th => th.1 = tid) with
  | some (_, a :: _) =>
    execAtom a { c with threads := c.threads.map (fun th => if th.1 = tid then (th.1, th.2.tail) else th) }
  | _ => c

/-- Run a schedule, naming at each step the thread that moves. -/
def runSched (c : Config) (sched : List Nat) : Config := sched.foldl stepThread c

/-- Two play calls (handler threads 0 and 1) for two files, whose detached
session threads get ids 10 and 11. -/
def twoPlayConfig : Config :=
  { sys := initSys,
    threads := [(0, playProg 10 "/mnt/music/f1.wav"), (1, playProg 11 "/mnt/music/f2.wav")] }

/-- Filesystem oracle under which every path exists and is a regular file. -/
def fsAll : List String → Bool := fun _ => true

/-- Configured music root used by concrete scenarios. -/
def root0 : List String := ["mnt", "music"]

/-- Segment of a constructed command: a fixed shell-safe word, a
shlex-quoted payload, or the pipe operator.  Every command `build_command`
returns is a space-separated sequence of such segments. -/
inductive Seg
  | fixed (w : List Char)
  | quoted (s : List Char)
  | pipeSeg
deriving DecidableEq

/-- Text a segment contributes to the command string. -/
def segText : Seg → List Char
  | .fixed w => w
  | .quoted s => shQuoteChars s
  | .pipeSeg => ['|']

/-- Text of a whole space-separated segment sequence. -/
def segsText : List Seg → List Char
  | [] => []
  | [x] => segText x
  | x :: rest => segText x ++ ' ' :: segsText rest

/-- Token the shell lexer recovers from a segment: the fixed word itself,
the quoted payload restored literally, or the pipe operator. -/
def segTok : Seg → Tok
  | .fixed w => .word w
  | .quoted s => .word s
  | .pipeSeg => .pipe

/-- Well-formedness of a segment: a fixed word must be nonempty and consist
of shell-safe characters; quoted payloads and pipes are always fine. -/
def segOk : Seg → Bool
  | .fixed w => w.all isShellSafeChar && !w.isEmpty
  | .quoted _ => true
  | .pipeSeg => true

/-- A state in which session pid 7 is playing a flac file. -/
def sysPlaying : Sys :=
  { state := { status := .playing, current_file := some "/mnt/music/a.flac",
               started_utc := some 5, pid := some 7 },
    proc := some 7,
    alive := [7],
    nextPid := 100 }

/-- Helper: the state left by `stop_playback_locked` is the reset of the
state it found, whatever the kill branch did. -/
theorem stopLocked_state (s : Sys) : (stopLocked s).state = stoppedReset s.state := by
  rcases hp : s.proc with _ | p
  · simp [stopLocked, hp]
  · by_cases hm : p ∈ s.alive <;> simp [stopLocked, hp, hm]

/-- Helper: `stop_playback_locked` always drops the process handle. -/
theorem stopLocked_proc (s : Sys) : (stopLocked s).proc = none := rfl

/-- Helper: `stop_playback_locked` spawns nothing. -/
theorem stopLocked_nextPid (s : Sys) : (stopLocked s).nextPid = s.nextPid := by
  rcases hp : s.proc with _ | p
  · simp [stopLocked, hp]
  · by_cases hm : p ∈ s.alive <;> simp [stopLocked, hp, hm]

/-- Helper: `stop_playback_locked` only ever removes processes from the live
set. -/
theorem stopLocked_alive_subset (s : Sys) : (stopLocked s).alive ⊆ s.alive := by
  rcases hp : s.proc with _ | p
  · simp [stopLocked, hp]
  · by_cases hm : p ∈ s.alive
    · simp only [stopLocked, hp, hm, if_true]
      exact fun a ha => List.mem_of_mem_erase ha
    · simp [stopLocked, hp, hm]

/-- Claim C4 (amended): after a session process exits with code `rc`, the
state becomes Stopped with `current_file` cleared when `rc = 0`; for
nonzero `rc` it becomes Error with `last_exit_code = rc`, a message
embedding `rc` in `last_error`, the process identifier and handle cleared —
but `current_file` is left unchanged, not cleared. -/
theorem session_exit_state (rc : Int) (s : Sys) :
    (onExit rc s).state.status = (if rc = 0 then PStatus.stopped else PStatus.error) ∧
    (onExit rc s).state.current_file = (if rc = 0 then none else s.state.current_file) ∧
    (onExit rc s).state.last_exit_code = some rc ∧
    (onExit rc s).state.pid = none ∧
    (onExit rc s).proc = none ∧
    (onExit rc s).state.last_error =
      (if rc = 0 then s.state.last_error
       else some ("Player exited with code " ++ toString rc)) := by
  by_cases h0 : rc = 0
  · subst h0
    refine ⟨?_, ?_, ?_, ?_, ?_, ?_⟩ <;>
      simp [onExit, stopLocked_state, stopLocked_proc, stoppedReset]
  · simp [onExit, h0]

/-- Claim C4 counterexample: at a concrete playing state, a nonzero exit
code (3) moves to Error and records the code, but `current_file` stays set
to the file that was playing, where the claim requires it cleared. -/
theorem nonzero_exit_keeps_current_file :
    (onExit 3 sysPlaying).state.status = .error ∧
    (onExit 3 sysPlaying).state.last_exit_code = some 3 ∧
    (onExit 3 sysPlaying).state.current_file = some "/mnt/music/a.flac" ∧
    (onExit 3 sysPlaying).state.current_file ≠ none := by
  refine ⟨rfl, rfl, rfl, by simp [onExit, sysPlaying]⟩

/-- Claim C5: in every state reachable from startup by any sequence of
lock-guarded transitions (the preemptive or api stop, a session start, a
session exit, a status read), the pid field is non-null exactly when the
status is Playing. -/
theorem pid_nonnull_iff_playing (ts : List Trans) :
    ((runTrans ts initSys).state.pid ≠ none ↔ (runTrans ts initSys).state.status = .playing) := by
  have key : ∀ (l : List Trans) (s : Sys),
      (s.state.pid ≠ none ↔ s.state.status = .playing) →
      ((runTrans l s).state.pid ≠ none ↔ (runTrans l s).state.status = .playing) := by
    intro l
    induction l with
    | nil => intro s hs; simpa [runTrans] using hs
    | cons t ts ih =>
      intro s hs
      have step : ((applyTrans s t).state.pid ≠ none ↔ (applyTrans s t).state.status = .playing) := by
        cases t with
        | stopT =>
          simp [applyTrans, stopLocked_state, stoppedReset]
        | startT f tm =>
          simp [applyTrans, spawnSet]
        | exitT rc =>
          by_cases h0 : rc = 0
          · subst h0
            simp [applyTrans, sessionExit, onExit, stopLocked_state, stoppedReset]
          · simp [applyTrans, sessionExit, onExit, h0]
        | statusT => exact hs
      simpa [runTrans] using ih (applyTrans s t) step
  exact key ts initSys (by simp [initSys])

/-- Claim C6: whenever the canonical form of a request path is not under the
configured root, `safe_resolve_path` fails with the outside-root error —
and it does so for every possible filesystem oracle, so the failure can
reveal nothing about existence. -/
theorem resolve_outside_root_no_fs (root : List String) (p : PyPath)
    (fsE fsF : List String → Bool)
    (h : root.isPrefixOf (canonicalOf root p) = false) :
    safe_resolve_path fsE fsF root p = .error .outsideRoot := by
  simp [safe_resolve_path, h]

/-- Witness for C6: a relative dot-dot traversal and an absolute path, both
escaping the root, are rejected as outside-root even by an oracle that says
every path exists (and by one that says none does). -/
theorem resolve_outside_root_no_fs_witness :
    safe_resolve_path fsAll fsAll root0 (parsePyPath "../../etc/passwd") = .error .outsideRoot ∧
    safe_resolve_path (fun _ => false) (fun _ => false) root0 (parsePyPath "/etc/passwd") = .error .outsideRoot :=
  ⟨resolve_outside_root_no_fs root0 (parsePyPath "../../etc/passwd") fsAll fsAll (by decide),
   resolve_outside_root_no_fs root0 (parsePyPath "/etc/passwd") (fun _ => false) (fun _ => false) (by decide)⟩

/-- Claim C7: stop always ends with status Stopped, the process identifier
and handle cleared, and reports success; it is idempotent (a second stop
changes nothing); when no process is owned it kills nothing; and when the
state is already the stopped reset it is a strict no-op. -/
theorem stop_idempotent (s : Sys) :
    (stopLocked s).state.status = .stopped ∧
    (stopLocked s).state.pid = none ∧
    (stopLocked s).proc = none ∧
    (stopApi s).2 = true ∧
    stopLocked (stopLocked s) = stopLocked s ∧
    (s.proc = none → (stopLocked s).alive = s.alive) ∧
    (s.proc = none → s.state = stoppedReset s.state → stopLocked s = s) := by
  refine ⟨?_, ?_, stopLocked_proc s, rfl, ?_, ?_, ?_⟩
  · rw [stopLocked_state]; rfl
  · rw [stopLocked_state]; rfl
  · rfl
  · intro h1
    simp [stopLocked, h1]
  · intro h1 h2
    have hL : stopLocked s = { s with proc := none, state := stoppedReset s.state } := by
      simp [stopLocked, h1]
    rw [hL, ← h2, ← h1]

/-- Witness for C7: at the startup state nothing is playing, and stop is a
strict no-op. -/
theorem stop_idempotent_witness :
    stopLocked initSys = initSys ∧ (stopLocked initSys).state.status = .stopped :=
  ⟨(stop_idempotent initSys).2.2.2.2.2.2 rfl rfl, (stop_idempotent initSys).1⟩

/-- Claim C8: building with kind auto on a file whose lowered extension is a
supported one produces exactly the pipeline of the corresponding explicit
kind on an otherwise identical request, and an unknown extension under auto
fails with the unknown-format error. -/
theorem auto_kind_matches_explicit (dev file : String) (req : PlayRequest) :
    (strLower (pySuffix file) = ".flac" →
      build_command dev { req with kind := .auto } file =
        build_command dev { req with kind := .flac } file) ∧
    ((strLower (pySuffix file) = ".wav" ∨ strLower (pySuffix file) = ".wave") →
      build_command dev { req with kind := .auto } file =
        build_command dev { req with kind := .wav } file) ∧
    ((strLower (pySuffix file) = ".pcm" ∨ strLower (pySuffix file) = ".raw") →
      build_command dev { req with kind := .auto } file =
        build_command dev { req with kind := .pcm } file) ∧
    (strLower (pySuffix file) ∉ ([".flac", ".wav", ".wave", ".pcm", ".raw"] : List String) →
      build_command dev { req with kind := .auto } file =
        .error (.unknownFormat (strLower (pySuffix file)))) := by
  refine ⟨?_, ?_, ?_, ?_⟩
  · intro h
    simp [build_command, resolve_kind, h]
  · intro h
    rcases h with h | h <;> simp [build_command, resolve_kind, h]
  · intro h
    rcases h with h | h <;> simp [build_command, resolve_kind, h]
  · intro h
    have h1 : strLower (pySuffix file) ≠ ".flac" := fun e => h (by simp [e])
    have h2 : strLower (pySuffix file) ≠ ".wav" := fun e => h (by simp [e])
    have h3 : strLower (pySuffix file) ≠ ".wave" := fun e => h (by simp [e])
    have h4 : strLower (pySuffix file) ≠ ".pcm" := fun e => h (by simp [e])
    have h5 : strLower (pySuffix file) ≠ ".raw" := fun e => h (by simp [e])
    simp [build_command, resolve_kind, h1, h2, h3, h4, h5]

/-- Witness for C8: a flac file resolves the same under auto and explicit
flac, a wav file the same under auto and explicit wav, and an unknown
extension under auto is rejected as unknown format. -/
theorem auto_kind_matches_explicit_witness :
    build_command "hw:2,0" { path := "a", kind := .auto } "/mnt/music/a.flac" =
      build_command "hw:2,0" { path := "a", kind := .flac } "/mnt/music/a.flac" ∧
    build_command "hw:2,0" { path := "a", kind := .auto } "/mnt/music/b.WAV" =
      build_command "hw:2,0" { path := "a", kind := .wav } "/mnt/music/b.WAV" ∧
    build_command "hw:2,0" { path := "a", kind := .auto } "/mnt/music/c.xyz" =
      .error (.unknownFormat ".xyz") :=
  ⟨(auto_kind_matches_explicit "hw:2,0" "/mnt/music/a.flac" { path := "a" }).1 rfl,
   (auto_kind_matches_explicit "hw:2,0" "/mnt/music/b.WAV" { path := "a" }).2.1 (Or.inl rfl),
   (auto_kind_matches_explicit "hw:2,0" "/mnt/music/c.xyz" { path := "a" }).2.2.2 (by decide)⟩

/-- Claim C9 (amended): for a pcm request, an absent format, rate or
channel-count field fails with the missing-parameters error; when all three
are supplied with nonzero rate and channel count the built command is the
single player stage carrying exactly those three values. -/
theorem pcm_params_required (dev file : String) (req : PlayRequest) (h : req.kind = .pcm) :
    ((req.pcm_format = none ∨ req.pcm_rate = none ∨ req.pcm_channels = none) →
      build_command dev req file = .error .missingPcmParams) ∧
    (∀ fmt rate channels, req.pcm_format = some fmt → req.pcm_rate = some rate →
      req.pcm_channels = some channels → rate ≠ 0 → channels ≠ 0 →
      build_command dev req file = .ok (pcmCmd dev fmt rate channels file)) := by
  constructor
  · intro habs
    rcases hf : req.pcm_format with _ | fmt <;>
      rcases hr : req.pcm_rate with _ | rate <;>
        rcases hc : req.pcm_channels with _ | ch <;>
          simp [hf, hr, hc] at habs ⊢ <;>
            simp [build_command, resolve_kind, h, hf, hr, hc]
  · intro fmt rate ch hf hr hc hrz hcz
    simp [build_command, resolve_kind, h, hf, hr, hc, hrz, hcz]

/-- Witness for C9 (amended): a pcm request missing its rate is rejected,
and one carrying S16_LE, 44100 Hz, 2 channels builds the player stage with
exactly those values. -/
theorem pcm_params_required_witness :
    build_command "hw:2,0" { path := "a", kind := .pcm, pcm_format := some .s16le, pcm_channels := some 2 } "/mnt/music/a.pcm" = .error .missingPcmParams ∧
    build_command "hw:2,0" { path := "a", kind := .pcm, pcm_format := some .s16le, pcm_rate := some 44100, pcm_channels := some 2 } "/mnt/music/a.pcm" =
      .ok (pcmCmd "hw:2,0" .s16le 44100 2 "/mnt/music/a.pcm") :=
  ⟨(pcm_params_required "hw:2,0" "/mnt/music/a.pcm"
      { path := "a", kind := .pcm, pcm_format := some .s16le, pcm_channels := some 2 } rfl).1
      (Or.inr (Or.inl rfl)),
   (pcm_params_required "hw:2,0" "/mnt/music/a.pcm"
      { path := "a", kind := .pcm, pcm_format := some .s16le, pcm_rate := some 44100, pcm_channels := some 2 } rfl).2
      .s16le 44100 2 rfl rfl rfl (by decide) (by decide)⟩

/-- Claim C9 counterexample: a pcm request in which all three parameters are
present, with rate supplied as zero, does not build the pipeline carrying
those values — it is rejected with the missing-parameters error, although
no field is absent. -/
theorem pcm_present_zero_rate_fails :
    ({ path := "a", kind := .pcm, pcm_format := some .s16le, pcm_rate := some 0, pcm_channels := some 2 : PlayRequest }.pcm_rate ≠ none) ∧
    ({ path := "a", kind := .pcm, pcm_format := some .s16le, pcm_rate := some 0, pcm_channels := some 2 : PlayRequest }.pcm_format ≠ none) ∧
    ({ path := "a", kind := .pcm, pcm_format := some .s16le, pcm_rate := some 0, pcm_channels := some 2 : PlayRequest }.pcm_channels ≠ none) ∧
    build_command "hw:2,0" { path := "a", kind := .pcm, pcm_format := some .s16le, pcm_rate := some 0, pcm_channels := some 2 } "/mnt/music/a.pcm" =
      .error .missingPcmParams := by
  refine ⟨by simp, by simp, by simp, ?_⟩
  simp [build_command, resolve_kind]

/-- Claim C10: a pcm request whose rate or channel count is present but
zero is rejected with exactly the missing-parameters error, the same error
an absent field produces, because the code tests presence by Python
truthiness. -/
theorem pcm_zero_is_missing (dev file : String) (req : PlayRequest) (h : req.kind = .pcm)
    (h0 : req.pcm_rate = some 0 ∨ req.pcm_channels = some 0) :
    build_command dev req file = .error .missingPcmParams ∧
    build_command dev { req with pcm_rate := none } file = .error .missingPcmParams ∧
    build_command dev { req with pcm_channels := none } file = .error .missingPcmParams := by
  refine ⟨?_, ?_, ?_⟩
  · rcases h0 with h0 | h0
    · rcases hf : req.pcm_format with _ | fmt <;>
        rcases hc : req.pcm_channels with _ | ch <;>
          simp [build_command, resolve_kind, h, hf, h0, hc]
    · rcases hf : req.pcm_format with _ | fmt <;>
        rcases hr : req.pcm_rate with _ | rate <;>
          simp [build_command, resolve_kind, h, hf, hr, h0]
  · rcases hf : req.pcm_format with _ | fmt <;>
      rcases hc : req.pcm_channels with _ | ch <;>
        simp [build_command, resolve_kind, h, hf, hc]
  · rcases hf : req.pcm_format with _ | fmt <;>
      rcases hr : req.pcm_rate with _ | rate <;>
        simp [build_command, resolve_kind, h, hf, hr]

/-- Witness for C10: rate present but zero is rejected exactly like an
absent rate. -/
theorem pcm_zero_is_missing_witness :
    build_command "hw:2,0" { path := "a", kind := .pcm, pcm_format := some .s16le, pcm_rate := some 0, pcm_channels := some 2 } "/mnt/music/a.pcm" =
      .error .missingPcmParams ∧
    build_command "hw:2,0" { path := "a", kind := .pcm, pcm_format := some .s16le, pcm_rate := none, pcm_channels := some 2 } "/mnt/music/a.pcm" =
      .error .missingPcmParams :=
  ⟨(pcm_zero_is_missing "hw:2,0" "/mnt/music/a.pcm"
      { path := "a", kind := .pcm, pcm_format := some .s16le, pcm_rate := some 0, pcm_channels := some 2 } rfl (Or.inl rfl)).1,
   (pcm_zero_is_missing "hw:2,0" "/mnt/music/a.pcm"
      { path := "a", kind := .pcm, pcm_format := some .s16le, pcm_rate := some 0, pcm_channels := some 2 } rfl (Or.inl rfl)).2.1⟩

/-- Claim C3 (amended): every validation failure of play is synchronous and
spawns no process; a path-resolution failure leaves the state completely
unchanged, while a pipeline-build failure leaves behind exactly the
preemptive stop (which has already terminated any active playback). -/
theorem play_failure_sync (root : List String) (fsE fsF : List String → Bool)
    (dev : String) (req : PlayRequest) (s : Sys) (e : ApiErr)
    (h : (playResult root fsE fsF dev req s).result = .error e) :
    (playResult root fsE fsF dev req s).sys.nextPid = s.nextPid ∧
    ((playResult root fsE fsF dev req s).sys = s ∨
      (playResult root fsE fsF dev req s).sys = stopLocked s) ∧
    (∀ re : ResolveErr, e = .resolve re → (playResult root fsE fsF dev req s).sys = s) := by
  rcases hres : safe_resolve_path fsE fsF root (parsePyPath req.path) with re | parts
  · refine ⟨?_, Or.inl ?_, ?_⟩ <;> simp [playResult, hres]
  · rcases hb : build_command dev req (renderAbs parts) with be | cmd
    · refine ⟨?_, Or.inr ?_, ?_⟩
      · simp [playResult, hres, hb, stopLocked_nextPid]
      · simp [playResult, hres, hb]
      · intro re her
        rw [her] at h
        simp [playResult, hres, hb] at h
    · exfalso
      simp [playResult, hres, hb] at h

/-- Witness for C3 (amended): a play request with an unknown extension fails
synchronously, spawns nothing, and leaves exactly the preempted stop state. -/
theorem play_failure_sync_witness :
    (playResult root0 fsAll fsAll "hw:2,0" { path := "b.xyz" } sysPlaying).sys.nextPid = sysPlaying.nextPid ∧
    ((playResult root0 fsAll fsAll "hw:2,0" { path := "b.xyz" } sysPlaying).sys = sysPlaying ∨
      (playResult root0 fsAll fsAll "hw:2,0" { path := "b.xyz" } sysPlaying).sys = stopLocked sysPlaying) :=
  ⟨(play_failure_sync root0 fsAll fsAll "hw:2,0" { path := "b.xyz" } sysPlaying
      (.build (.unknownFormat ".xyz")) rfl).1,
   (play_failure_sync root0 fsAll fsAll "hw:2,0" { path := "b.xyz" } sysPlaying
      (.build (.unknownFormat ".xyz")) rfl).2.1⟩

/-- Claim C3 counterexample: with pid 7 playing, a play request whose path
resolves fine but whose extension is unknown surfaces the build error —
yet the shared state has been mutated by the failed call: the active
process was killed and the state reset to Stopped. -/
theorem build_failure_mutates_state :
    ((playResult root0 fsAll fsAll "hw:2,0" { path := "b.xyz" } sysPlaying).result =
      .error (.build (.unknownFormat ".xyz"))) ∧
    (playResult root0 fsAll fsAll "hw:2,0" { path := "b.xyz" } sysPlaying).sys.state ≠ sysPlaying.state ∧
    (playResult root0 fsAll fsAll "hw:2,0" { path := "b.xyz" } sysPlaying).sys.state.status = .stopped ∧
    sysPlaying.state.status = .playing ∧
    (playResult root0 fsAll fsAll "hw:2,0" { path := "b.xyz" } sysPlaying).sys.alive = [] ∧
    sysPlaying.alive = [7] := by
  refine ⟨rfl, ?_, rfl, rfl, rfl, rfl⟩
  decide

/-- Claim C2: evaluation of the code at the racy interleaving.  Threads 0
and 1 are two play calls; after schedule [0, 0, 1, 1] both have returned
(their queues are empty) and nothing is owned — the second play's
preemptive stop found nothing to kill because neither detached session
thread had spawned yet.  Session thread 10 (started by the FIRST play) then
spawns pid 100 and publishes it, so status immediately after the second
play returned shows the first session's pid; one further step of session
thread 11 yields two concurrently live processes. -/
theorem play_preemption_race :
    ((runSched twoPlayConfig [0, 0, 1, 1]).threads.find? (fun th => th.1 = 0) = some (0, [])) ∧
    ((runSched twoPlayConfig [0, 0, 1, 1]).threads.find? (fun th => th.1 = 1) = some (1, [])) ∧
    (runSched twoPlayConfig [0, 0, 1, 1]).sys.proc = none ∧
    (runSched twoPlayConfig [0, 0, 1, 1, 10]).sys.alive = [100] ∧
    (runSched twoPlayConfig [0, 0, 1, 1, 10, 10]).sys.state.pid = some 100 ∧
    (runSched twoPlayConfig [0, 0, 1, 1, 10, 10]).sys.state.status = .playing ∧
    (runSched twoPlayConfig [0, 0, 1, 1, 10, 10]).sys.state.current_file = some "/mnt/music/f1.wav" ∧
    (runSched twoPlayConfig [0, 0, 1, 1, 10, 10, 11]).sys.alive = [100, 101] :=
  ⟨rfl, rfl, rfl, rfl, rfl, rfl, rfl, rfl⟩

/-- Helper: a shell-safe character is none of the characters the word
splitter treats specially. -/
theorem safe_char_cases (c : Char) (h : isShellSafeChar c = true) :
    c ≠ ' ' ∧ c ≠ '|' ∧ c ≠ squote ∧ c ≠ dquote ∧ c ∉ shellDanger := by
  refine ⟨?_, ?_, ?_, ?_, ?_⟩
  · intro he; subst he; exact absurd h (by decide)
  · intro he; subst he; exact absurd h (by decide)
  · intro he; subst he; exact absurd h (by decide)
  · intro he; subst he; exact absurd h (by decide)
  · intro he
    simp only [shellDanger, List.mem_cons, List.not_mem_nil, or_false] at he
    rcases he with rfl | rfl | rfl | rfl | rfl | rfl | rfl | rfl | rfl | rfl | rfl <;>
      exact absurd h (by decide)

/-- Helper: a space flushes the word in progress. -/
theorem lex_space (acc rest : List Char) :
    lexAux .norm acc true (' ' :: rest) =
      (lexAux .norm [] false rest).map (fun ts => Tok.word acc :: ts) := rfl

/-- Helper: a space with no word in progress is skipped. -/
theorem lex_skip_space (rest : List Char) :
    lexAux .norm [] false (' ' :: rest) = lexAux .norm [] false rest := rfl

/-- Helper: an unquoted pipe with no word in progress emits the pipe token. -/
theorem lex_pipe (rest : List Char) :
    lexAux .norm [] false ('|' :: rest) =
      (lexAux .norm [] false rest).map (fun ts => Tok.pipe :: ts) := rfl

/-- Helper: inside single quotes, the escaped body produced by `shlex.quote`
is read back literally, ending at the closing quote.  Even embedded single
quotes survive via the quote, double-quote, quote dance of `escSQ`. -/
theorem lex_insingle_escaped (s : List Char) : ∀ (acc rest : List Char),
    lexAux .insingle acc true ((s.map escSQ).flatten ++ squote :: rest) =
      lexAux .norm (acc ++ s) true rest := by
  induction s with
  | nil => intro acc rest; simp [lexAux]
  | cons c t ih =>
    intro acc rest
    by_cases hc : c = squote
    · subst hc
      have hstep : lexAux .insingle acc true (((squote :: t).map escSQ).flatten ++ squote :: rest) =
          lexAux .insingle (acc ++ [squote]) true ((t.map escSQ).flatten ++ squote :: rest) := rfl
      rw [hstep, ih]
      simp
    · have hesc : escSQ c = [c] := by simp [escSQ, hc]
      have hflat : ((c :: t).map escSQ).flatten ++ squote :: rest =
          c :: ((t.map escSQ).flatten ++ squote :: rest) := by simp [hesc]
      rw [hflat]
      have hone : lexAux .insingle acc true (c :: ((t.map escSQ).flatten ++ squote :: rest)) =
          lexAux .insingle (acc ++ [c]) true ((t.map escSQ).flatten ++ squote :: rest) := by
        simp [lexAux, hc]
      rw [hone, ih]
      simp

/-- Helper: a run of shell-safe characters is consumed into the current
word. -/
theorem lex_norm_safe (s : List Char) : ∀ (acc : List Char) (st : Bool) (rest : List Char),
    s.all isShellSafeChar = true →
    lexAux .norm acc st (s ++ rest) = lexAux .norm (acc ++ s) (st || !s.isEmpty) rest := by
  induction s with
  | nil => intro acc st rest _; simp
  | cons c t ih =>
    intro acc st rest h
    rw [List.all_cons, Bool.and_eq_true] at h
    obtain ⟨hc, ht⟩ := h
    obtain ⟨h1, h2, h3, h4, h5⟩ := safe_char_cases c hc
    have hstep : lexAux .norm acc st ((c :: t) ++ rest) =
        lexAux .norm (acc ++ [c]) true (t ++ rest) := by
      simp only [List.cons_append]
      simp [lexAux, h1, h2, h3, h4, h5]
    rw [hstep, ih (acc ++ [c]) true rest ht]
    simp

/-- Helper: the shell reads a `shlex.quote`d payload back as exactly the
literal payload, continued into the current word — for every payload,
metacharacters included. -/
theorem lex_shQuote (s acc : List Char) (st : Bool) (rest : List Char) :
    lexAux .norm acc st (shQuoteChars s ++ rest) = lexAux .norm (acc ++ s) true rest := by
  by_cases h0 : s = []
  · subst h0
    have hone : lexAux .norm acc st (shQuoteChars [] ++ rest) = lexAux .norm acc true rest := rfl
    rw [hone]
    simp
  · by_cases h1 : s.all isShellSafeChar = true
    · have he : s.isEmpty = false := by
        cases s with
        | nil => exact absurd rfl h0
        | cons a b => rfl
      have hq : shQuoteChars s = s := by simp [shQuoteChars, h0, h1]
      rw [hq, lex_norm_safe s acc st rest h1, he]
      simp
    · have hq : shQuoteChars s = squote :: ((s.map escSQ).flatten ++ [squote]) := by
        simp [shQuoteChars, h0, h1]
      rw [hq]
      have hassoc : (squote :: ((s.map escSQ).flatten ++ [squote])) ++ rest =
          squote :: ((s.map escSQ).flatten ++ squote :: rest) := by simp
      rw [hassoc]
      have hone : lexAux .norm acc st (squote :: ((s.map escSQ).flatten ++ squote :: rest)) =
          lexAux .insingle acc true ((s.map escSQ).flatten ++ squote :: rest) := rfl
      rw [hone, lex_insingle_escaped]

/-- Helper: a nonempty safe word followed by a space lexes as one word
token. -/
theorem lex_word_space (w rest : List Char) (hw : w.all isShellSafeChar = true)
    (hne : w.isEmpty = false) :
    lexAux .norm [] false (w ++ ' ' :: rest) =
      (lexAux .norm [] false rest).map (fun ts => Tok.word w :: ts) := by
  rw [lex_norm_safe w [] false (' ' :: rest) hw, hne]
  simp only [List.nil_append, Bool.not_false, Bool.or_true]
  exact lex_space w rest

/-- Helper: a well-formed space-separated segment sequence lexes to exactly
its segment tokens — fixed words and quoted payloads come back literally,
pipes come back as the pipe operator, and nothing else is produced. -/
theorem lex_segs (segs : List Seg) (hok : segs.all segOk = true) :
    lexAux .norm [] false (segsText segs) = some (segs.map segTok) := by
  induction segs with
  | nil => rfl
  | cons x rest ih =>
    cases rest with
    | nil =>
      cases x with
      | fixed w =>
        have hok1 : w.all isShellSafeChar = true ∧ w.isEmpty = false := by
          simpa [segOk] using hok
        have hone : segsText [Seg.fixed w] = w ++ [] := by simp [segsText, segText]
        rw [hone, lex_norm_safe w [] false [] hok1.1, hok1.2]
        simp [lexAux, segTok]
      | quoted s =>
        have hone : segsText [Seg.quoted s] = shQuoteChars s ++ [] := by simp [segsText, segText]
        rw [hone, lex_shQuote]
        simp [lexAux, segTok]
      | pipeSeg => rfl
    | cons y t =>
      rw [List.all_cons, Bool.and_eq_true] at hok
      obtain ⟨hok1, hok2⟩ := hok
      cases x with
      | fixed w =>
        have hw : w.all isShellSafeChar = true ∧ w.isEmpty = false := by
          simpa [segOk] using hok1
        have hone : segsText (Seg.fixed w :: y :: t) = w ++ ' ' :: segsText (y :: t) := rfl
        rw [hone, lex_word_space w (segsText (y :: t)) hw.1 hw.2, ih hok2]
        simp [segTok]
      | quoted s =>
        have hone : segsText (Seg.quoted s :: y :: t) = shQuoteChars s ++ ' ' :: segsText (y :: t) := rfl
        rw [hone, lex_shQuote s [] false (' ' :: segsText (y :: t))]
        simp only [List.nil_append]
        rw [lex_space s (segsText (y :: t)), ih hok2]
        simp [segTok]
      | pipeSeg =>
        have hone : segsText (Seg.pipeSeg :: y :: t) = '|' :: ' ' :: segsText (y :: t) := rfl
        rw [hone, lex_pipe, lex_skip_space, ih hok2]
        simp [segTok]

/-- Helper: every digit character of a decimal rendering is shell safe. -/
theorem digitChar_mod10_safe (n : Nat) : isShellSafeChar (Nat.digitChar (n % 10)) = true := by
  have h : n % 10 < 10 := Nat.mod_lt _ (by norm_num)
  set k := n % 10 with hk
  interval_cases k <;> decide

/-- Helper: the decimal digit accumulator only ever holds shell-safe
characters. -/
theorem toDigitsCore_safe (fuel : Nat) : ∀ (n : Nat) (ds : List Char),
    ds.all isShellSafeChar = true →
    (Nat.toDigitsCore 10 fuel n ds).all isShellSafeChar = true := by
  induction fuel with
  | zero => intro n ds hds; simpa [Nat.toDigitsCore] using hds
  | succ f ih =>
    intro n ds hds
    simp only [Nat.toDigitsCore]
    split
    · simp [digitChar_mod10_safe n, hds]
    · exact ih _ _ (by simp [digitChar_mod10_safe n, hds])

/-- Helper: the decimal digit accumulator never comes back empty when it
starts nonempty or fuel remains. -/
theorem toDigitsCore_ne_nil (fuel : Nat) : ∀ (n : Nat) (ds : List Char),
    fuel ≠ 0 ∨ ds ≠ [] → Nat.toDigitsCore 10 fuel n ds ≠ [] := by
  induction fuel with
  | zero =>
    intro n ds h
    rcases h with h | h
    · exact absurd rfl h
    · simpa [Nat.toDigitsCore] using h
  | succ f ih =>
    intro n ds _
    simp only [Nat.toDigitsCore]
    split
    · simp
    · exact ih _ _ (Or.inr (by simp))

/-- Helper: the decimal rendering of a natural number is shell safe. -/
theorem natRepr_safe (n : Nat) : (Nat.repr n).data.all isShellSafeChar = true :=
  toDigitsCore_safe (n + 1) n [] rfl

/-- Helper: the decimal rendering of a natural number is nonempty. -/
theorem natRepr_ne_empty (n : Nat) : (Nat.repr n).data.isEmpty = false := by
  have h := toDigitsCore_ne_nil (n + 1) n [] (Or.inl (Nat.succ_ne_zero n))
  rcases hx : Nat.toDigitsCore 10 (n + 1) n [] with _ | ⟨a, b⟩
  · exact absurd hx h
  · show (Nat.toDigits 10 n).isEmpty = false
    simp only [Nat.toDigits]
    rw [hx]
    rfl

/-- Helper: string append concatenates the character data. -/
theorem sdata_append (s t : String) : (s ++ t).data = s.data ++ t.data := rfl

/-- Helper: character data of a packed list is the list itself. -/
theorem sdata_mk (l : List Char) : (String.mk l).data = l := rfl

/-- Helper: the wav command is the segment sequence player, device flag,
quoted device, quoted file. -/
theorem wavCmd_segs (dev file : String) :
    (wavCmd dev file).data = segsText
      [.fixed "/usr/bin/aplay".data, .fixed "-D".data, .quoted dev.data, .quoted file.data] := by
  simp only [wavCmd, shlexQuote, sdata_append, sdata_mk, segsText, segText]
  simp [List.append_assoc]

/-- Helper: the flac command is the two-stage decoder-pipe-player segment
sequence. -/
theorem flacCmd_segs (dev file : String) :
    (flacCmd dev file).data = segsText
      [.fixed "/usr/bin/ffmpeg".data, .fixed "-loglevel".data, .fixed "error".data, .fixed "-i".data,
       .quoted file.data, .fixed "-f".data, .fixed "wav".data, .fixed "-c:a".data,
       .fixed "pcm_s32le".data, .fixed "-ac".data, .fixed "2".data, .fixed "-".data, .pipeSeg,
       .fixed "/usr/bin/aplay".data, .fixed "-D".data, .quoted dev.data] := by
  simp only [flacCmd, shlexQuote, sdata_append, sdata_mk, segsText, segText]
  simp [List.append_assoc]

/-- Helper: the pcm command is the single player-stage segment sequence
carrying format, rate and channel count. -/
theorem pcmCmd_segs (dev : String) (fmt : PcmFormat) (rate channels : Nat) (file : String) :
    (pcmCmd dev fmt rate channels file).data = segsText
      [.fixed "/usr/bin/aplay".data, .fixed "-D".data, .quoted dev.data, .fixed "-f".data,
       .quoted fmt.str.data, .fixed "-r".data, .fixed (Nat.repr rate).data, .fixed "-c".data,
       .fixed (Nat.repr channels).data, .quoted file.data] := by
  simp only [pcmCmd, shlexQuote, sdata_append, sdata_mk, segsText, segText]
  simp [List.append_assoc]

/-- Helper: the shell parses the wav command into exactly one player stage
whose arguments are the literal device and file path. -/
theorem shellParse_wavCmd (dev file : String) :
    shellParse (wavCmd dev file) =
      some [["/usr/bin/aplay".data, "-D".data, dev.data, file.data]] := by
  have hok : ([.fixed "/usr/bin/aplay".data, .fixed "-D".data, .quoted dev.data,
      .quoted file.data] : List Seg).all segOk = true := rfl
  have h := lex_segs _ hok
  show (lexAux .norm [] false (wavCmd dev file).data).map splitPipes = _
  rw [wavCmd_segs, h]
  rfl

/-- Helper: the shell parses the flac command into exactly the decoder stage
piped into the player stage, with the literal file path and device. -/
theorem shellParse_flacCmd (dev file : String) :
    shellParse (flacCmd dev file) =
      some [["/usr/bin/ffmpeg".data, "-loglevel".data, "error".data, "-i".data, file.data,
             "-f".data, "wav".data, "-c:a".data, "pcm_s32le".data, "-ac".data, "2".data, "-".data],
            ["/usr/bin/aplay".data, "-D".data, dev.data]] := by
  have hok : ([.fixed "/usr/bin/ffmpeg".data, .fixed "-loglevel".data, .fixed "error".data,
      .fixed "-i".data, .quoted file.data, .fixed "-f".data, .fixed "wav".data, .fixed "-c:a".data,
      .fixed "pcm_s32le".data, .fixed "-ac".data, .fixed "2".data, .fixed "-".data, .pipeSeg,
      .fixed "/usr/bin/aplay".data, .fixed "-D".data, .quoted dev.data] : List Seg).all segOk = true := rfl
  have h := lex_segs _ hok
  show (lexAux .norm [] false (flacCmd dev file).data).map splitPipes = _
  rw [flacCmd_segs, h]
  rfl

/-- Helper: the shell parses the pcm command into exactly one player stage
carrying the literal device, format, decimal rate, decimal channel count
and file path. -/
theorem shellParse_pcmCmd (dev : String) (fmt : PcmFormat) (rate channels : Nat) (file : String) :
    shellParse (pcmCmd dev fmt rate channels file) =
      some [["/usr/bin/aplay".data, "-D".data, dev.data, "-f".data, fmt.str.data,
             "-r".data, (Nat.repr rate).data, "-c".data, (Nat.repr channels).data, file.data]] := by
  have hok : ([.fixed "/usr/bin/aplay".data, .fixed "-D".data, .quoted dev.data, .fixed "-f".data,
      .quoted fmt.str.data, .fixed "-r".data, .fixed (Nat.repr rate).data, .fixed "-c".data,
      .fixed (Nat.repr channels).data, .quoted file.data] : List Seg).all segOk = true := by
    rw [List.all_eq_true]
    intro seg hseg
    simp only [List.mem_cons, List.not_mem_nil, or_false] at hseg
    rcases hseg with rfl | rfl | rfl | rfl | rfl | rfl | rfl | rfl | rfl | rfl
    · decide
    · decide
    · rfl
    · decide
    · rfl
    · decide
    · simp [segOk, natRepr_safe, natRepr_ne_empty]
    · decide
    · simp [segOk, natRepr_safe, natRepr_ne_empty]
    · rfl
  have h := lex_segs _ hok
  show (lexAux .norm [] false (pcmCmd dev fmt rate channels file).data).map splitPipes = _
  rw [pcmCmd_segs, h]
  rfl

/-- Claim C1 (amended): for every successfully built command — any device
string, any file path, shell metacharacters included — the string handed to
the shell parses into exactly the pipeline of argument vectors the spec
prescribes: only the intended decoder and player stages, with the literal
file path (and device, format, rate, channel count) as single arguments.
The quoting, not an argument vector, is what confines the metacharacters:
the command is still one shell string, as the counterexample records. -/
theorem build_command_shell_safe (dev file : String) (req : PlayRequest) (cmd : String)
    (h : build_command dev req file = .ok cmd) :
    ∃ stages, specStages dev file req = .ok stages ∧ shellParse cmd = some stages := by
  unfold build_command at h
  unfold specStages
  rcases hk : resolve_kind req.kind (strLower (pySuffix file)) with e | k
  · rw [hk] at h
    exact absurd h (by simp)
  · rw [hk] at h
    cases k with
    | auto => simp at h
    | flac =>
      simp only [reduceCtorEq, reduceIte, Except.ok.injEq] at h
      subst h
      exact ⟨_, rfl, shellParse_flacCmd dev file⟩
    | wav =>
      simp only [reduceCtorEq, reduceIte, Except.ok.injEq] at h
      subst h
      exact ⟨_, rfl, shellParse_wavCmd dev file⟩
    | pcm =>
      simp only [reduceCtorEq, reduceIte] at h
      rcases hf : req.pcm_format with _ | fmt <;> rw [hf] at h
      · simp at h
      · rcases hr : req.pcm_rate with _ | rate <;> rw [hr] at h
        · simp at h
        · rcases hc : req.pcm_channels with _ | ch <;> rw [hc] at h
          · simp at h
          · dsimp only at h ⊢
            by_cases hz : rate = 0 ∨ ch = 0
            · rcases hz with hz | hz <;> simp [hz] at h
            · rw [if_neg hz] at h
              simp only [Except.ok.injEq] at h
              subst h
              refine ⟨_, ?_, shellParse_pcmCmd dev fmt rate ch file⟩
              rw [if_neg hz]

/-- Witness for C1 (amended): a wav file whose name embeds a semicolon
metacharacter and a space still parses to the single intended player stage
with the literal name as one argument. -/
theorem build_command_shell_safe_witness :
    ∃ stages,
      specStages "hw:2,0" "/mnt/music/a;rm -rf x.wav" { path := "a;rm -rf x.wav", kind := .wav } = .ok stages ∧
      shellParse (wavCmd "hw:2,0" "/mnt/music/a;rm -rf x.wav") = some stages :=
  build_command_shell_safe "hw:2,0" "/mnt/music/a;rm -rf x.wav"
    { path := "a;rm -rf x.wav", kind := .wav }
    (wavCmd "hw:2,0" "/mnt/music/a;rm -rf x.wav") rfl

/-- Claim C1 counterexample: the constructed command is not executed via
explicit per-program argument vectors — `spawn_player` hands the OS the
argv of `/bin/sh`, which is not one of the intended decoder or player
programs, with the whole command as a single shell string into which the
user-controlled path (metacharacters and all) was interpolated. -/
theorem spawn_is_shell_string :
    build_command "hw:2,0" { path := "a;rm -rf x.wav", kind := .wav } "/mnt/music/a;rm -rf x.wav" =
      .ok (wavCmd "hw:2,0" "/mnt/music/a;rm -rf x.wav") ∧
    (spawn_argv (wavCmd "hw:2,0" "/mnt/music/a;rm -rf x.wav")).head? = some "/bin/sh" ∧
    "/bin/sh" ∉ intendedPrograms ∧
    List.IsInfix ("/mnt/music/a;rm -rf x.wav".data)
      ((wavCmd "hw:2,0" "/mnt/music/a;rm -rf x.wav").data) := by
  refine ⟨rfl, rfl, by decide, ?_⟩
  decide

end PiAudio
